import Mathlib

/-!
Verification of the position-tracking playback core of `src/audio_player.py`.

Modelling conventions (shallow embedding):
* pydub `AudioSegment` lengths are integer milliseconds (`len(audio)` in the
  source); the merged buffer is therefore tracked as a millisecond count `ℕ`.
* Positions/offsets in seconds (`len(combined) / 1000.0` in the source) are
  modelled as exact rationals `ℚ` (the source uses floats; the properties are
  about the exact arithmetic of the algorithm).
* Decoding a WAV file is an opaque service: `dur : String → ℕ` gives each
  path its decoded duration in milliseconds.
* `gap_seconds` is modelled as a natural number of seconds, as in the source's
  integer default (`gap_seconds=3`); the inserted silence is `gap * 1000` ms.
* UI widget internals (rendering, traitlets machinery) are external
  collaborators; a `FloatSlider` with `min=0, max=total` clamps assigned
  values into `[0, total]` (`sliderClamp`), and a user-driven slider change
  fires `on_position_change` (`userSeek`).  Programmatic assignments to
  widget fields are modelled as plain field writes.
* Wall-clock time is passed explicitly (`now : ℚ`) to the operations that
  read `time.time()`.
-/

namespace AudioPlayerModel

/-- One element of `file_positions`: `{'file': ..., 'start': ..., 'end': ...}`
(source lines 54-58, 65).  `endPos` stands for the source's `'end'` key
(a Lean keyword). -/
structure Entry where
  file : String
  start : ℚ
  endPos : ℚ
deriving DecidableEq

instance : Inhabited Entry := ⟨⟨"", 0, 0⟩⟩

/-- `os.path.basename` for POSIX paths: the part of the path after the last
`/` (the whole path when it has no `/`). -/
def basename (p : String) : String :=
  ⟨(p.data.reverse.takeWhile (fun c => c ≠ '/')).reverse⟩

/-- The loop body of `combine_wav_files` (source lines 52-72).  State carried
through the loop: `combined` is `len(combined)` in milliseconds, `pos` is
`current_position` in seconds.  For each file: record the entry with
`start = current_position` and `end = len(combined)/1000` after appending the
audio, set `current_position = len(combined)/1000`, and append
`gap_seconds * 1000` ms of silence unless the file *value* equals
`wav_files[-1]` (source line 69 compares `wav_file != wav_files[-1]`). -/
def combineLoop (dur : String → ℕ) (lastFile : String) (gapSeconds : ℕ) :
    List String → ℕ → ℚ → ℕ × List Entry
  | [], combined, _pos => (combined, [])
  | w :: ws, combined, pos =>
    let combined1 := combined + dur w
    let e : Entry := ⟨basename w, pos, (combined1 : ℚ) / 1000⟩
    let combined2 := if w ≠ lastFile then combined1 + gapSeconds * 1000 else combined1
    let pos2 := if w ≠ lastFile then (combined1 : ℚ) / 1000 + gapSeconds
                else (combined1 : ℚ) / 1000
    let r := combineLoop dur lastFile gapSeconds ws combined2 pos2
    (r.1, e :: r.2)

/-- `combine_wav_files(wav_files, gap_seconds)` (source lines 27-73): raises
`ValueError("WAVファイルが見つかりません。")` on an empty list, otherwise returns the
merged buffer (its length in ms) and the `file_positions` list. -/
def combine_wav_files (dur : String → ℕ) (wavFiles : List String)
    (gapSeconds : ℕ) : Except String (ℕ × List Entry) :=
  if wavFiles = [] then .error "WAVファイルが見つかりません。"
  else .ok (combineLoop dur (wavFiles.getLastD "") gapSeconds wavFiles 0 0)

/-- Total duration of the merged timeline in seconds:
`len(combined_audio) / 1000.0`. -/
def totalSeconds (r : ℕ × List Entry) : ℚ := (r.1 : ℚ) / 1000

/-- `AudioPlayer.get_current_file(position)` (source lines 143-148): first
entry with `start <= position < end`, else `"不明なファイル"` (unknown file). -/
def get_current_file (filePositions : List Entry) (position : ℚ) : String :=
  match filePositions with
  | [] => "不明なファイル"
  | e :: rest =>
    if e.start ≤ position ∧ position < e.endPos then e.file
    else get_current_file rest position

/-- The `FloatSlider(min=0, max=total)` of `setup_widgets` (source lines
125-136) restricts any assigned value to `[0, max]`. -/
def sliderClamp (total v : ℚ) : ℚ := max 0 (min v total)

/-- Python `int()`: truncation toward zero. -/
def pyInt (q : ℚ) : ℤ := if 0 ≤ q then ⌊q⌋ else -⌊-q⌋

/-- The object returned by `_create_wav_obj_from_position`: an
`sa.WaveObject` holding the frames from `start_frame` to the end of the
merged file (source lines 230-234). -/
structure WaveObj where
  startFrame : ℤ
  numFrames : ℕ
deriving DecidableEq

/-- `AudioPlayer._create_wav_obj_from_position(position_seconds)` (source
lines 216-237): `start_frame = int(position_seconds * frame_rate)`;
`wave.setpos` raises (caught, returning `None`) unless
`0 <= start_frame <= nframes`; otherwise the remaining
`nframes - start_frame` frames are wrapped in a `WaveObject`. -/
def createWavObjFromPosition (nframes frameRate : ℕ) (positionSeconds : ℚ) :
    Option WaveObj :=
  let startFrame := pyInt (positionSeconds * frameRate)
  if 0 ≤ startFrame ∧ startFrame ≤ (nframes : ℤ) then
    some ⟨startFrame, nframes - startFrame.toNat⟩
  else none

/-- A `simpleaudio` play object: `is_playing()` is modelled by the field
`stillPlaying`; `stop()` sets it to false. -/
structure SaPlayObj where
  stillPlaying : Bool
deriving DecidableEq

/-- The mutable state of an `AudioPlayer` (source lines 96-141), together
with the immutable data fixed at construction (`file_positions`, the merged
duration, the exported WAV's frame count and rate, and whether
`simpleaudio` imported).  `playbackStartedFrom` is the derived observable
"offset in the merged timeline at which the external playback primitive most
recently began playing" (`none` if playback was never started). -/
structure PlayerState where
  haveSimpleaudio : Bool
  filePositions : List Entry
  totalDuration : ℚ
  nframes : ℕ
  frameRate : ℕ
  playing : Bool
  playObj : Option SaPlayObj
  currentPosition : ℚ
  currentFileName : String
  sliderValue : ℚ
  fileLabel : String
  playButtonDesc : String
  playButtonIcon : String
  startPosition : ℚ
  startTime : ℚ
  playbackStartedFrom : Option ℚ
deriving DecidableEq

/-- `AudioPlayer.play()` (source lines 186-214).  `now` is `time.time()`.
The start of the progress thread is modelled separately by
`update_progress_tick`. -/
def play (now : ℚ) (s : PlayerState) : PlayerState :=
  if s.playing then s
  else
    let s1 := { s with playing := true, playButtonDesc := "一時停止",
                       playButtonIcon := "pause",
                       startPosition := s.sliderValue, startTime := now }
    if s1.haveSimpleaudio then
      match createWavObjFromPosition s1.nframes s1.frameRate s1.startPosition with
      | some w =>
        { s1 with playObj := some ⟨true⟩,
                  playbackStartedFrom := some ((w.startFrame : ℚ) / s1.frameRate) }
      | none => s1
    else
      { s1 with
          fileLabel := "SimpleAudioがインストールされていないため、再生位置の制御が制限されます",
          playbackStartedFrom := some 0 }

/-- `AudioPlayer.pause()` (source lines 239-249): no-op unless playing;
otherwise clear the playing flag, restore the play button, and stop the
`simpleaudio` play object when present. -/
def pause (s : PlayerState) : PlayerState :=
  if ¬ s.playing then s
  else
    let s1 := { s with playing := false, playButtonDesc := "再生",
                       playButtonIcon := "play" }
    if s1.haveSimpleaudio ∧ s1.playObj.isSome then
      { s1 with playObj := some ⟨false⟩ }
    else s1

/-- `AudioPlayer.stop()` (source lines 251-256): `pause()`, then reset the
slider and `current_position` to 0 and set the status label. -/
def stop (s : PlayerState) : PlayerState :=
  let s1 := pause s
  let s2 := { s1 with sliderValue := 0 }
  { s2 with currentPosition := 0, fileLabel := "停止しました" }

/-- The specification's wording of `stop()` (spec §4.3): "equivalent to
`pause()` followed by resetting `currentOffsetSeconds = 0` and transitioning
to `Idle`".  The spec's single `currentOffsetSeconds` corresponds to the pair
(`current_position`, `position_slider.value`) that the code keeps in sync. -/
def stopSpec (s : PlayerState) : PlayerState :=
  { pause s with currentPosition := 0, sliderValue := 0 }

/-- `AudioPlayer.on_position_change(change)` (source lines 258-269): when not
playing, update the position and the displayed file name; when playing,
`pause()`, set `current_position`, and `play()` again (which reads the new
slider value as its start position). -/
def on_position_change (now : ℚ) (s : PlayerState) (newVal : ℚ) : PlayerState :=
  if ¬ s.playing then
    let cf := get_current_file s.filePositions newVal
    { s with currentPosition := newVal, currentFileName := cf,
             fileLabel := "準備完了: " ++ cf }
  else
    let s1 := pause s
    let s2 := { s1 with currentPosition := newVal }
    play now s2

/-- A user-driven slider change (`seek`): the widget clamps the requested
value to `[0, total]` and fires `on_position_change` when the value actually
changed. -/
def userSeek (now : ℚ) (s : PlayerState) (v : ℚ) : PlayerState :=
  let v1 := sliderClamp s.totalDuration v
  if v1 = s.sliderValue then s
  else on_position_change now { s with sliderValue := v1 } v1

/-- One iteration of the `update_progress` loop body (source lines 150-177),
entered with the wall clock at `now`: exit if not playing, or without
`simpleaudio`, or with no play object; handle natural completion; otherwise
compute `current_position = start_position + (now - start_time)`, clamp at
the total duration (clearing `playing` at the clamp), and publish the slider
value, the resolved current file and the status label. -/
def update_progress_tick (now : ℚ) (s : PlayerState) : PlayerState :=
  if ¬ s.playing then s
  else if ¬ s.haveSimpleaudio then s
  else
    match s.playObj with
    | none => s
    | some p =>
      if ¬ p.stillPlaying then
        { s with playing := false, playButtonDesc := "再生",
                 playButtonIcon := "play", fileLabel := "再生完了" }
      else
        let cp0 := s.startPosition + (now - s.startTime)
        let cp := if cp0 ≥ s.totalDuration then s.totalDuration else cp0
        let pl := if cp0 ≥ s.totalDuration then false else s.playing
        let cf := get_current_file s.filePositions cp
        { s with currentPosition := cp, playing := pl, sliderValue := cp,
                 currentFileName := cf, fileLabel := "再生中: " ++ cf }

/-- Result of `AudioPlayer.__init__` (source lines 82-103): `warned` when the
file list is empty (the constructor prints a warning and returns early,
leaving a partially constructed object); `raised msg` when an exception
propagates; `player s` on success. -/
inductive InitResult where
  | warned
  | raised (msg : String)
  | player (s : PlayerState)
deriving DecidableEq

/-- Whether `__init__` ended by raising an exception. -/
def InitResult.isRaised : InitResult → Bool
  | .raised _ => true
  | _ => false

/-- `AudioPlayer.__init__(folder, gap_seconds)` (source lines 82-103), taking
the sorted file list `get_wav_files(folder)` returned, the decode oracle, the
`simpleaudio` availability flag and the exported file's frame data.  Initial
widget state from `setup_widgets` (source lines 105-141): slider at 0 with
`max = len(combined)/1000`, label `"再生準備完了"`, play button `再生`. -/
def audioPlayerInit (dur : String → ℕ) (gapSeconds : ℕ) (files : List String)
    (haveSA : Bool) (nframes frameRate : ℕ) : InitResult :=
  if files = [] then .warned
  else
    match combine_wav_files dur files gapSeconds with
    | .error msg => .raised msg
    | .ok (fin, es) =>
      .player
        { haveSimpleaudio := haveSA
          filePositions := es
          totalDuration := (fin : ℚ) / 1000
          nframes := nframes
          frameRate := frameRate
          playing := false
          playObj := none
          currentPosition := 0
          currentFileName := ""
          sliderValue := 0
          fileLabel := "再生準備完了"
          playButtonDesc := "再生"
          playButtonIcon := "play"
          startPosition := 0
          startTime := 0
          playbackStartedFrom := none }

/-- Erase the free-text status label, keeping every other component of the
state (used to compare states up to display text). -/
def eraseLabel (s : PlayerState) : PlayerState := { s with fileLabel := "" }

/-! ### Concrete fixtures (used by the witness theorems)

`durEx`/`filesEx` is the spec's §8 scenario: three files of durations
2.0 s, 3.5 s and 1.0 s with a 3 s gap.  `filesDup` is a list whose last
path also occurs at an earlier position. -/

def durEx : String → ℕ :=
  fun s => if s = "a.wav" then 2000 else if s = "b.wav" then 3500 else 1000

def filesEx : List String := ["a.wav", "b.wav", "c.wav"]

def entriesEx : List Entry :=
  [⟨"a.wav", 0, 2⟩, ⟨"b.wav", 5, 17 / 2⟩, ⟨"c.wav", 23 / 2, 25 / 2⟩]

def filesDup : List String := ["a.wav", "b.wav", "a.wav"]

def entriesDup : List Entry :=
  [⟨"a.wav", 0, 2⟩, ⟨"b.wav", 2, 11 / 2⟩, ⟨"a.wav", 17 / 2, 21 / 2⟩]

/-- A session that is playing with a live `simpleaudio` play object. -/
def sPlaying : PlayerState :=
  { haveSimpleaudio := true, filePositions := entriesEx, totalDuration := 25 / 2,
    nframes := 0, frameRate := 0, playing := true, playObj := some ⟨true⟩,
    currentPosition := 0, currentFileName := "", sliderValue := 0,
    fileLabel := "", playButtonDesc := "一時停止", playButtonIcon := "pause",
    startPosition := 1, startTime := 0, playbackStartedFrom := none }

/-- An idle session in an environment where `simpleaudio` failed to import. -/
def sDegraded : PlayerState :=
  { haveSimpleaudio := false, filePositions := entriesEx, totalDuration := 25 / 2,
    nframes := 0, frameRate := 0, playing := false, playObj := none,
    currentPosition := 0, currentFileName := "", sliderValue := 5,
    fileLabel := "", playButtonDesc := "再生", playButtonIcon := "play",
    startPosition := 0, startTime := 0, playbackStartedFrom := none }

/-! ### Structural lemmas about the concatenation loop -/

theorem combineLoop_fst (dur : String → ℕ) (lastFile : String) (gap : ℕ) :
    ∀ (ws : List String) (c : ℕ) (p : ℚ),
      (combineLoop dur lastFile gap ws c p).1
        = c + (ws.map dur).sum
          + 1000 * gap * ws.countP (fun w => decide (w ≠ lastFile)) := by
  intro ws
  induction ws with
  | nil => intro c p; simp [combineLoop]
  | cons w ws ih =>
    intro c p
    rcases eq_or_ne w lastFile with hw | hw
    · simp [combineLoop, hw, ih, List.countP_cons]
      ring
    · simp [combineLoop, hw, ih, List.countP_cons]
      ring

theorem combineLoop_length (dur : String → ℕ) (lastFile : String) (gap : ℕ) :
    ∀ (ws : List String) (c : ℕ) (p : ℚ),
      ((combineLoop dur lastFile gap ws c p).2).length = ws.length := by
  intro ws
  induction ws with
  | nil => intro c p; simp [combineLoop]
  | cons w ws ih => intro c p; simp [combineLoop, ih]

/-! ### Lookup, player and end-to-end lemmas -/

theorem div1000_mono {a b : ℕ} (h : a ≤ b) : (a : ℚ) / 1000 ≤ (b : ℚ) / 1000 := by
  gcongr

/-- Invariant bundle for the concatenation loop, by induction on the file
list: when entered with `current_position = len(combined)/1000`, every
produced entry starts at or after the entry position, has `start ≤ end`,
ends at or before the final merged duration, and records the basename and
duration of one of the processed files; moreover the entries are pairwise
disjoint in order. -/
theorem combineLoop_entries (dur : String → ℕ) (lastFile : String) (gap : ℕ) :
    ∀ (ws : List String) (c : ℕ) (p : ℚ), p = (c : ℚ) / 1000 →
      (∀ e ∈ (combineLoop dur lastFile gap ws c p).2,
          p ≤ e.start ∧ e.start ≤ e.endPos ∧
          e.endPos ≤ ((combineLoop dur lastFile gap ws c p).1 : ℚ) / 1000 ∧
          ∃ w ∈ ws, e.file = basename w ∧ e.endPos = e.start + (dur w : ℚ) / 1000) ∧
      ((combineLoop dur lastFile gap ws c p).2).Pairwise
        (fun a b => a.endPos ≤ b.start) := by
  intro ws
  induction ws with
  | nil => intro c p hp; simp [combineLoop]
  | cons w ws ih =>
    intro c p hp
    subst hp
    rcases eq_or_ne w lastFile with hw | hw
    · have hunf : combineLoop dur lastFile gap (w :: ws) c ((c : ℚ) / 1000)
          = ((combineLoop dur lastFile gap ws (c + dur w)
                (((c + dur w : ℕ) : ℚ) / 1000)).1,
             (⟨basename w, (c : ℚ) / 1000, ((c + dur w : ℕ) : ℚ) / 1000⟩ : Entry)
               :: (combineLoop dur lastFile gap ws (c + dur w)
                    (((c + dur w : ℕ) : ℚ) / 1000)).2) := by
        simp [combineLoop, hw]
      rw [hunf]
      obtain ⟨ihA, ihB⟩ := ih (c + dur w) (((c + dur w : ℕ) : ℚ) / 1000) rfl
      have hfst := combineLoop_fst dur lastFile gap ws (c + dur w)
        (((c + dur w : ℕ) : ℚ) / 1000)
      have hcf : (c + dur w : ℕ)
          ≤ (combineLoop dur lastFile gap ws (c + dur w)
              (((c + dur w : ℕ) : ℚ) / 1000)).1 := by
        rw [hfst]; omega
      have hmono : (c : ℚ) / 1000 ≤ ((c + dur w : ℕ) : ℚ) / 1000 :=
        div1000_mono (Nat.le_add_right c (dur w))
      constructor
      · intro e he
        rcases List.mem_cons.mp he with rfl | he'
        · refine ⟨le_refl _, hmono, div1000_mono hcf,
            ⟨w, List.mem_cons_self _ _, rfl, by push_cast; ring⟩⟩
        · obtain ⟨h1, h2, h3, w', hw', hf, he2⟩ := ihA e he'
          exact ⟨le_trans hmono h1, h2, h3,
            ⟨w', List.mem_cons_of_mem _ hw', hf, he2⟩⟩
      · rw [List.pairwise_cons]
        exact ⟨fun b hb => (ihA b hb).1, ihB⟩
    · have hunf : combineLoop dur lastFile gap (w :: ws) c ((c : ℚ) / 1000)
          = ((combineLoop dur lastFile gap ws (c + dur w + gap * 1000)
                (((c + dur w : ℕ) : ℚ) / 1000 + (gap : ℚ))).1,
             (⟨basename w, (c : ℚ) / 1000, ((c + dur w : ℕ) : ℚ) / 1000⟩ : Entry)
               :: (combineLoop dur lastFile gap ws (c + dur w + gap * 1000)
                    (((c + dur w : ℕ) : ℚ) / 1000 + (gap : ℚ))).2) := by
        simp [combineLoop, hw]
      rw [hunf]
      have hp2 : ((c + dur w : ℕ) : ℚ) / 1000 + (gap : ℚ)
          = ((c + dur w + gap * 1000 : ℕ) : ℚ) / 1000 := by
        push_cast; ring
      obtain ⟨ihA, ihB⟩ := ih (c + dur w + gap * 1000)
        (((c + dur w : ℕ) : ℚ) / 1000 + (gap : ℚ)) hp2
      have hfst := combineLoop_fst dur lastFile gap ws (c + dur w + gap * 1000)
        (((c + dur w : ℕ) : ℚ) / 1000 + (gap : ℚ))
      have hcf : (c + dur w : ℕ)
          ≤ (combineLoop dur lastFile gap ws (c + dur w + gap * 1000)
              (((c + dur w : ℕ) : ℚ) / 1000 + (gap : ℚ))).1 := by
        rw [hfst]; omega
      have hmono : (c : ℚ) / 1000 ≤ ((c + dur w : ℕ) : ℚ) / 1000 :=
        div1000_mono (Nat.le_add_right c (dur w))
      have hgap0 : ((c + dur w : ℕ) : ℚ) / 1000
          ≤ ((c + dur w : ℕ) : ℚ) / 1000 + (gap : ℚ) := by
        have : (0 : ℚ) ≤ (gap : ℚ) := by positivity
        linarith
      constructor
      · intro e he
        rcases List.mem_cons.mp he with rfl | he'
        · refine ⟨le_refl _, hmono, div1000_mono hcf,
            ⟨w, List.mem_cons_self _ _, rfl, by push_cast; ring⟩⟩
        · obtain ⟨h1, h2, h3, w', hw', hf, he2⟩ := ihA e he'
          exact ⟨le_trans hmono (le_trans hgap0 h1), h2, h3,
            ⟨w', List.mem_cons_of_mem _ hw', hf, he2⟩⟩
      · rw [List.pairwise_cons]
        exact ⟨fun b hb => le_trans hgap0 (ihA b hb).1, ihB⟩

theorem combineLoop_getD_zero_start (dur : String → ℕ) (lastFile : String)
    (gap : ℕ) (w : String) (ws : List String) (c : ℕ) (p : ℚ) :
    (((combineLoop dur lastFile gap (w :: ws) c p).2).getD 0 default).start = p := by
  simp [combineLoop]

/-- Adjacent entries: entry `i+1` starts where entry `i` ends, plus the gap
exactly when the `i`-th file's value differs from `wav_files[-1]`
(source line 69). -/
theorem combineLoop_getD_adj (dur : String → ℕ) (lastFile : String) (gap : ℕ) :
    ∀ (ws : List String) (c : ℕ) (p : ℚ), p = (c : ℚ) / 1000 →
      ∀ i, i + 1 < ws.length →
        (((combineLoop dur lastFile gap ws c p).2).getD (i + 1) default).start
          = (((combineLoop dur lastFile gap ws c p).2).getD i default).endPos
            + (if ws.getD i "" ≠ lastFile then (gap : ℚ) else 0) := by
  intro ws
  induction ws with
  | nil => intro c p hp i hi; simp at hi
  | cons w ws ih =>
    intro c p hp i hi
    subst hp
    rcases eq_or_ne w lastFile with hw | hw
    · have hunf : combineLoop dur lastFile gap (w :: ws) c ((c : ℚ) / 1000)
          = ((combineLoop dur lastFile gap ws (c + dur w)
                (((c + dur w : ℕ) : ℚ) / 1000)).1,
             (⟨basename w, (c : ℚ) / 1000, ((c + dur w : ℕ) : ℚ) / 1000⟩ : Entry)
               :: (combineLoop dur lastFile gap ws (c + dur w)
                    (((c + dur w : ℕ) : ℚ) / 1000)).2) := by
        simp [combineLoop, hw]
      rw [hunf]
      cases i with
      | zero =>
        match ws, hi with
        | w' :: ws', _ =>
          simp only [List.getD_cons_succ, List.getD_cons_zero]
          rw [combineLoop_getD_zero_start]
          simp [hw]
      | succ j =>
        have hj : j + 1 < ws.length := by simpa using hi
        have hih := ih (c + dur w) (((c + dur w : ℕ) : ℚ) / 1000) rfl j hj
        simp only [List.getD_cons_succ]
        exact hih
    · have hunf : combineLoop dur lastFile gap (w :: ws) c ((c : ℚ) / 1000)
          = ((combineLoop dur lastFile gap ws (c + dur w + gap * 1000)
                (((c + dur w : ℕ) : ℚ) / 1000 + (gap : ℚ))).1,
             (⟨basename w, (c : ℚ) / 1000, ((c + dur w : ℕ) : ℚ) / 1000⟩ : Entry)
               :: (combineLoop dur lastFile gap ws (c + dur w + gap * 1000)
                    (((c + dur w : ℕ) : ℚ) / 1000 + (gap : ℚ))).2) := by
        simp [combineLoop, hw]
      rw [hunf]
      have hp2 : ((c + dur w : ℕ) : ℚ) / 1000 + (gap : ℚ)
          = ((c + dur w + gap * 1000 : ℕ) : ℚ) / 1000 := by
        push_cast; ring
      cases i with
      | zero =>
        match ws, hi with
        | w' :: ws', _ =>
          simp only [List.getD_cons_succ, List.getD_cons_zero]
          rw [combineLoop_getD_zero_start]
          simp [hw]
      | succ j =>
        have hj : j + 1 < ws.length := by simpa using hi
        have hih := ih (c + dur w + gap * 1000)
          (((c + dur w : ℕ) : ℚ) / 1000 + (gap : ℚ)) hp2 j hj
        simp only [List.getD_cons_succ]
        exact hih

theorem get_current_file_of_forall_not (es : List Entry) (x : ℚ)
    (h : ∀ e ∈ es, ¬(e.start ≤ x ∧ x < e.endPos)) :
    get_current_file es x = "不明なファイル" := by
  induction es with
  | nil => rfl
  | cons e es ih =>
    have he := h e (List.mem_cons_self _ _)
    simp only [get_current_file, if_neg he]
    exact ih (fun e' he' => h e' (List.mem_cons_of_mem _ he'))

theorem get_current_file_of_mem (es : List Entry)
    (hpw : es.Pairwise (fun a b => a.endPos ≤ b.start))
    (e : Entry) (he : e ∈ es) (x : ℚ) (h1 : e.start ≤ x) (h2 : x < e.endPos) :
    get_current_file es x = e.file := by
  induction es with
  | nil => cases he
  | cons a es ih =>
    obtain ⟨ha, hpw2⟩ := List.pairwise_cons.mp hpw
    rcases List.mem_cons.mp he with rfl | he2
    · simp [get_current_file, h1, h2]
    · have hna : ¬(a.start ≤ x ∧ x < a.endPos) := by
        rintro ⟨hax, hxa⟩
        have h3 : a.endPos ≤ e.start := ha e he2
        linarith
      simp only [get_current_file, if_neg hna]
      exact ih hpw2 he2

/-- A point lying on or after the end of entry `i` and strictly before the
start of entry `i+1` is covered by no entry of a pairwise-disjoint index. -/
theorem between_not_covered (es : List Entry)
    (hpw : es.Pairwise (fun a b => a.endPos ≤ b.start))
    (hse : ∀ e ∈ es, e.start ≤ e.endPos)
    (i : ℕ) (hi : i + 1 < es.length) (x : ℚ)
    (hx1 : (es.getD i default).endPos ≤ x)
    (hx2 : x < (es.getD (i + 1) default).start) :
    ∀ e ∈ es, ¬(e.start ≤ x ∧ x < e.endPos) := by
  intro e he
  rintro ⟨h1, h2⟩
  obtain ⟨⟨j, hj⟩, hget⟩ := List.mem_iff_get.mp he
  have hii : i < es.length := by omega
  have hDi : es.getD i default = es.get ⟨i, hii⟩ := List.getD_eq_get es default hii
  have hDi1 : es.getD (i + 1) default = es.get ⟨i + 1, hi⟩ :=
    List.getD_eq_get es default hi
  have hpg := List.pairwise_iff_get.mp hpw
  rcases lt_trichotomy j i with hji | rfl | hij
  · have hr : (es.get ⟨j, hj⟩).endPos ≤ (es.get ⟨i, hii⟩).start :=
      hpg ⟨j, hj⟩ ⟨i, hii⟩ hji
    have hsi : (es.get ⟨i, hii⟩).start ≤ (es.get ⟨i, hii⟩).endPos :=
      hse _ (List.get_mem es i hii)
    rw [hget] at hr
    rw [hDi] at hx1
    linarith
  · rw [hDi] at hx1
    rw [hget] at hx1
    linarith
  · rcases eq_or_lt_of_le (Nat.succ_le_of_lt hij) with hj1 | hj1
    · have : es.get ⟨i + 1, hi⟩ = es.get ⟨j, hj⟩ := by
        congr 1
        exact Fin.ext hj1
      rw [hDi1, this, hget] at hx2
      linarith
    · have hr : (es.get ⟨i + 1, hi⟩).endPos ≤ (es.get ⟨j, hj⟩).start :=
        hpg ⟨i + 1, hi⟩ ⟨j, hj⟩ hj1
      have hsi : (es.get ⟨i + 1, hi⟩).start ≤ (es.get ⟨i + 1, hi⟩).endPos :=
        hse _ (List.get_mem es (i + 1) hi)
      rw [hget] at hr
      rw [hDi1] at hx2
      linarith

theorem combine_wav_files_ok {dur : String → ℕ} {files : List String} {gap : ℕ}
    {fin : ℕ} {es : List Entry}
    (hok : combine_wav_files dur files gap = .ok (fin, es)) :
    files ≠ [] ∧ fin = (combineLoop dur (files.getLastD "") gap files 0 0).1
      ∧ es = (combineLoop dur (files.getLastD "") gap files 0 0).2 := by
  by_cases h : files = []
  · rw [combine_wav_files, if_pos h] at hok
    cases hok
  · rw [combine_wav_files, if_neg h] at hok
    have h2 := Except.ok.inj hok
    exact ⟨h, by rw [h2], by rw [h2]⟩

/-- The spec's §8 scenario evaluated: durations [2.0, 3.5, 1.0] s with a
3 s gap merge to 12.5 s with entries [0,2), [5,8.5), [11.5,12.5). -/
theorem combineEx_ok : combine_wav_files durEx filesEx 3 = .ok (12500, entriesEx) := by
  simp [combine_wav_files, combineLoop, basename, durEx, filesEx, entriesEx]
  norm_num

/-- Concatenation of a list whose last path also occurs first: no gap is
inserted after the first file, so the total is 10.5 s rather than 13.5 s. -/
theorem combineDup_ok :
    combine_wav_files durEx filesDup 3 = .ok (10500, entriesDup) := by
  simp [combine_wav_files, combineLoop, basename, durEx, filesDup, entriesDup]
  norm_num

theorem pause_playing (s : PlayerState) : (pause s).playing = false := by
  by_cases h : s.playing <;>
    by_cases h2 : s.haveSimpleaudio = true ∧ s.playObj.isSome = true <;>
      simp [pause, h, h2]

theorem pause_haveSimpleaudio (s : PlayerState) :
    (pause s).haveSimpleaudio = s.haveSimpleaudio := by
  by_cases h : s.playing <;>
    by_cases h2 : s.haveSimpleaudio = true ∧ s.playObj.isSome = true <;>
      simp [pause, h, h2]

/-- Unfolding of `play` in degraded mode (no `simpleaudio`) from a
non-playing state: the limitation message is shown and the playback
primitive is started at offset 0 (source lines 211-214). -/
theorem play_degraded (now : ℚ) (s : PlayerState)
    (hsa : s.haveSimpleaudio = false) (hnp : s.playing = false) :
    play now s
      = { s with playing := true, playButtonDesc := "一時停止",
                 playButtonIcon := "pause",
                 startPosition := s.sliderValue, startTime := now,
                 fileLabel := "SimpleAudioがインストールされていないため、再生位置の制御が制限されます",
                 playbackStartedFrom := some 0 } := by
  rw [play, if_neg (by simp [hnp])]
  simp [hsa]

/-! ### The claims -/

/-- Claim C1, counterexample: for the input list `["a", "a"]` (the last
path also occurs at position 0) with 1 s files and a 3 s gap, the merged
duration is 2 s, not `sum(durations) + gapSeconds * (n - 1) = 5` s, because
the gap decision at source line 69 compares path values. -/
theorem total_duration_claim_counterexample :
    combine_wav_files (fun _ => 1000) ["a", "a"] 3
      = .ok (2000, [⟨"a", 0, 1⟩, ⟨"a", 1, 2⟩]) ∧
    ¬((2000 : ℚ) / 1000
        = (((["a", "a"].map (fun _ => (1000 : ℕ))).sum : ℚ)) / 1000
          + (3 : ℚ) * (((["a", "a"].length - 1 : ℕ)) : ℚ)) := by
  constructor
  · simp [combine_wav_files, combineLoop, basename]
    norm_num
  · norm_num

/-- Claim C1 (amended): for every non-empty ordered list of input files
whose last path does not occur at an earlier position, and every gap value,
the merged timeline produced by `combine_wav_files` has total duration equal
to the sum of the individual file durations plus `gapSeconds * (n - 1)`. -/
theorem total_duration_distinct_last (dur : String → ℕ) (files : List String)
    (gap : ℕ) (fin : ℕ) (es : List Entry)
    (hok : combine_wav_files dur files gap = .ok (fin, es))
    (hlast : ∀ w ∈ files.dropLast, w ≠ files.getLastD "") :
    (fin : ℚ) / 1000
      = ((files.map dur).sum : ℚ) / 1000
        + (gap : ℚ) * ((files.length - 1 : ℕ) : ℚ) := by
  obtain ⟨hne, hfin, -⟩ := combine_wav_files_ok hok
  have hfst := combineLoop_fst dur (files.getLastD "") gap files 0 0
  have hlast2 : files.getLast hne = files.getLastD "" := by
    rw [List.getLastD_eq_getLast?, List.getLast?_eq_getLast _ hne]
    rfl
  have hcount : files.countP (fun w => decide (w ≠ files.getLastD ""))
      = files.length - 1 := by
    set P : String → Bool := fun w => decide (w ≠ files.getLastD "") with hP
    have h1 : List.countP P [files.getLast hne] = 0 := by
      simp [hP, hlast2]
    have h2 : List.countP P files.dropLast = files.dropLast.length := by
      rw [List.countP_eq_length]
      intro a ha
      rw [hP]
      simpa using hlast a ha
    conv_lhs => rw [← List.dropLast_append_getLast hne]
    rw [List.countP_append, h1, h2, List.length_dropLast]
    omega
  rw [hfin, hfst, hcount]
  set k := files.length - 1
  push_cast
  ring

/-- Claim C1 witness: the amended theorem at the three-file scenario:
12.5 s = (2 + 3.5 + 1) s + 3 s * 2. -/
theorem total_duration_distinct_last_witness :
    (12500 : ℚ) / 1000
      = ((filesEx.map durEx).sum : ℚ) / 1000
        + (3 : ℚ) * ((filesEx.length - 1 : ℕ) : ℚ) :=
  total_duration_distinct_last durEx filesEx 3 12500 entriesEx combineEx_ok
    (by decide)

/-- Claim C2: for every position index produced by `combine_wav_files`,
`get_current_file` returns the file name of the entry whose interval
satisfies `start ≤ offset < end` (unique by pairwise disjointness); every
offset below 0, at or beyond the total duration, or lying between two
consecutive entries (inside an inserted gap) resolves to `"不明なファイル"`
(Unknown).  The lookup is a total function, so it never raises. -/
theorem resolve_correct (dur : String → ℕ) (files : List String)
    (gap : ℕ) (fin : ℕ) (es : List Entry)
    (hok : combine_wav_files dur files gap = .ok (fin, es)) :
    (∀ e ∈ es, ∀ x : ℚ, e.start ≤ x → x < e.endPos →
        get_current_file es x = e.file) ∧
    (∀ x : ℚ, x < 0 → get_current_file es x = "不明なファイル") ∧
    (∀ x : ℚ, (fin : ℚ) / 1000 ≤ x → get_current_file es x = "不明なファイル") ∧
    (∀ i : ℕ, i + 1 < es.length → ∀ x : ℚ,
        (es.getD i default).endPos ≤ x → x < (es.getD (i + 1) default).start →
        get_current_file es x = "不明なファイル") := by
  obtain ⟨hne, hfin, hes⟩ := combine_wav_files_ok hok
  subst hes
  subst hfin
  obtain ⟨hA, hpw⟩ := combineLoop_entries dur (files.getLastD "") gap files 0 0
    (by norm_num)
  refine ⟨?_, ?_, ?_, ?_⟩
  · intro e he x h1 h2
    exact get_current_file_of_mem _ hpw e he x h1 h2
  · intro x hx
    apply get_current_file_of_forall_not
    intro e he
    rintro ⟨h1, -⟩
    have h0 := (hA e he).1
    linarith
  · intro x hx
    apply get_current_file_of_forall_not
    intro e he
    rintro ⟨-, h2⟩
    have hend := (hA e he).2.2.1
    linarith
  · intro i hi x hx1 hx2
    exact get_current_file_of_forall_not _ _
      (between_not_covered _ hpw (fun e he => (hA e he).2.1) i hi x hx1 hx2)

/-- Claim C2 witness: on the §8 scenario index, offset 1 s resolves to the
first file, and offsets −1 s, 13 s and 3 s (inside the first gap) resolve
to Unknown. -/
theorem resolve_correct_witness :
    get_current_file entriesEx 1 = "a.wav" ∧
    get_current_file entriesEx (-1) = "不明なファイル" ∧
    get_current_file entriesEx 13 = "不明なファイル" ∧
    get_current_file entriesEx 3 = "不明なファイル" := by
  obtain ⟨h1, h2, h3, h4⟩ := resolve_correct durEx filesEx 3 12500 entriesEx
    combineEx_ok
  refine ⟨?_, ?_, ?_, ?_⟩
  · have := h1 ⟨"a.wav", 0, 2⟩ (by simp [entriesEx]) 1 (by norm_num) (by norm_num)
    simpa using this
  · exact h2 (-1) (by norm_num)
  · exact h3 13 (by norm_num)
  · exact h4 0 (by simp [entriesEx]) 3 (by norm_num [entriesEx])
      (by norm_num [entriesEx])

/-- Claim C3: for every non-empty ordered input list, the position index
produced by `combine_wav_files` has entries sorted in non-decreasing start
order, pairwise non-overlapping, with `end > start` for every entry
(assuming no zero-length source file), and no entry's interval contains any
point of an inserted gap interval (the region between two consecutive
entries). -/
theorem position_index_invariants (dur : String → ℕ) (files : List String)
    (gap : ℕ) (fin : ℕ) (es : List Entry)
    (hdur : ∀ w ∈ files, 0 < dur w)
    (hok : combine_wav_files dur files gap = .ok (fin, es)) :
    es.Pairwise (fun a b => a.start ≤ b.start) ∧
    es.Pairwise (fun a b => a.endPos ≤ b.start) ∧
    (∀ e ∈ es, e.start < e.endPos) ∧
    (∀ i : ℕ, i + 1 < es.length → ∀ x : ℚ,
        (es.getD i default).endPos ≤ x → x < (es.getD (i + 1) default).start →
        ∀ e ∈ es, ¬(e.start ≤ x ∧ x < e.endPos)) := by
  obtain ⟨hne, hfin, hes⟩ := combine_wav_files_ok hok
  subst hes
  obtain ⟨hA, hpw⟩ := combineLoop_entries dur (files.getLastD "") gap files 0 0
    (by norm_num)
  refine ⟨?_, hpw, ?_, ?_⟩
  · exact List.Pairwise.imp_of_mem
      (fun ha hb hr => le_trans (hA _ ha).2.1 hr) hpw
  · intro e he
    obtain ⟨h0, h1, h2, w, hw, hf, he2⟩ := hA e he
    have hd : (0 : ℚ) < (dur w : ℚ) := by exact_mod_cast hdur w hw
    have hd2 : (0 : ℚ) < (dur w : ℚ) / 1000 := by positivity
    rw [he2]
    linarith
  · intro i hi x hx1 hx2
    exact between_not_covered _ hpw (fun e he => (hA e he).2.1) i hi x hx1 hx2

/-- Claim C3 witness: the invariants instantiated on the §8 scenario
index. -/
theorem position_index_invariants_witness :
    entriesEx.Pairwise (fun a b => a.endPos ≤ b.start) ∧
    entriesEx.Pairwise (fun a b => a.start ≤ b.start) := by
  obtain ⟨h1, h2, h3, h4⟩ := position_index_invariants durEx filesEx 3 12500
    entriesEx (by decide) combineEx_ok
  exact ⟨h2, h1⟩

/-- Claim C4, counterexample: constructing an `AudioPlayer` on an empty
file set does not raise and does not abort: `__init__` returns early after
printing a warning (source lines 84-86), producing a partially constructed
player object, and `combine_wav_files` is never called. -/
theorem empty_input_no_abort_counterexample :
    (audioPlayerInit (fun _ => 1000) 3 [] true 0 0).isRaised = false ∧
    audioPlayerInit (fun _ => 1000) 3 [] true 0 0 = .warned := by
  constructor <;> rfl

/-- Claim C4 (amended): `combine_wav_files` raises
`ValueError("WAVファイルが見つかりません。")` on an empty list, but `AudioPlayer`
construction on an empty file set does not fail: it warns and returns
early, leaving a partially constructed player object. -/
theorem empty_input_warned (dur : String → ℕ) (gap : ℕ) (haveSA : Bool)
    (nf fr : ℕ) :
    combine_wav_files dur [] gap = .error "WAVファイルが見つかりません。" ∧
    audioPlayerInit dur gap [] haveSA nf fr = .warned := by
  constructor <;> rfl

/-- Claim C5: when `simpleaudio` is unavailable, `play()` from a
non-playing session (with any requested offset in the slider) still
succeeds: the playback primitive starts the whole merged timeline at
offset 0, the limitation is reported in the status label, and a subsequent
seek of any value leaves the playback start offset at 0. -/
theorem degraded_mode_playback (s : PlayerState) (now : ℚ)
    (hsa : s.haveSimpleaudio = false) (hnp : s.playing = false) :
    (play now s).playbackStartedFrom = some 0 ∧
    (play now s).fileLabel
      = "SimpleAudioがインストールされていないため、再生位置の制御が制限されます" ∧
    (play now s).playing = true ∧
    (∀ v now2 : ℚ, (userSeek now2 (play now s) v).playbackStartedFrom = some 0) := by
  rw [play_degraded now s hsa hnp]
  refine ⟨rfl, rfl, rfl, ?_⟩
  intro v now2
  set s1 : PlayerState :=
    { s with playing := true, playButtonDesc := "一時停止",
             playButtonIcon := "pause",
             startPosition := s.sliderValue, startTime := now,
             fileLabel := "SimpleAudioがインストールされていないため、再生位置の制御が制限されます",
             playbackStartedFrom := some 0 } with hs1
  by_cases hv : sliderClamp s1.totalDuration v = s1.sliderValue
  · rw [userSeek, if_pos hv]
  · rw [userSeek, if_neg hv, on_position_change]
    rw [if_neg (by simp [hs1])]
    set s2 : PlayerState := { s1 with sliderValue := sliderClamp s1.totalDuration v }
      with hs2
    set s3 : PlayerState :=
      { pause s2 with currentPosition := sliderClamp s1.totalDuration v } with hs3
    have h3sa : s3.haveSimpleaudio = false := by
      rw [hs3]
      show (pause s2).haveSimpleaudio = false
      rw [pause_haveSimpleaudio]
      simp [hs2, hs1, hsa]
    have h3np : s3.playing = false := by
      rw [hs3]
      show (pause s2).playing = false
      exact pause_playing s2
    rw [play_degraded now2 s3 h3sa h3np]

/-- Claim C5 witness: on a concrete degraded session, `play` starts
playback at offset 0 and a seek to 7 s leaves it at 0. -/
theorem degraded_mode_playback_witness :
    (play 0 sDegraded).playbackStartedFrom = some 0 ∧
    (userSeek 1 (play 0 sDegraded) 7).playbackStartedFrom = some 0 := by
  obtain ⟨h1, h2, h3, h4⟩ := degraded_mode_playback sDegraded 0 rfl rfl
  exact ⟨h1, h4 7 1⟩

/-- Claim C6, counterexample: a requested offset of 5 on a 2 s timeline is
clamped by the slider to exactly 2 = `totalDuration`, which is *not* inside
the half-open range `[0, totalDuration)` the claim states. -/
theorem clamp_halfopen_counterexample :
    sliderClamp 2 5 = 2 ∧ ¬(sliderClamp 2 5 < 2) := by
  constructor <;> norm_num [sliderClamp]

/-- Claim C6 (amended): every requested offset outside `[0, totalDuration)`
is clamped by the slider into the closed range `[0, totalDuration]`, and
`_create_wav_obj_from_position` succeeds on the clamped offset (the frame
position is within bounds, so playback starts rather than failing). -/
theorem clamp_and_playback_start (nframes rate : ℕ) (hr : 0 < rate) (v : ℚ)
    (hout : v < 0 ∨ (nframes : ℚ) / rate ≤ v) :
    (0 ≤ sliderClamp ((nframes : ℚ) / rate) v
      ∧ sliderClamp ((nframes : ℚ) / rate) v ≤ (nframes : ℚ) / rate) ∧
    (createWavObjFromPosition nframes rate
        (sliderClamp ((nframes : ℚ) / rate) v)).isSome = true := by
  have hrQ : (0 : ℚ) < rate := by exact_mod_cast hr
  have htot0 : (0 : ℚ) ≤ (nframes : ℚ) / rate := by positivity
  set c := sliderClamp ((nframes : ℚ) / rate) v with hc
  have h0 : 0 ≤ c := le_max_left _ _
  have h1 : c ≤ (nframes : ℚ) / rate := by
    rw [hc, sliderClamp]
    exact max_le htot0 (min_le_right _ _)
  refine ⟨⟨h0, h1⟩, ?_⟩
  have hcr : 0 ≤ c * rate := by positivity
  have hcrn : c * rate ≤ (nframes : ℚ) := by
    have h2 := mul_le_mul_of_nonneg_right h1 (le_of_lt hrQ)
    rwa [div_mul_cancel₀ _ (ne_of_gt hrQ)] at h2
  have hfl0 : (0 : ℤ) ≤ ⌊c * (rate : ℚ)⌋ := Int.floor_nonneg.mpr hcr
  have hfl1 : ⌊c * (rate : ℚ)⌋ ≤ (nframes : ℤ) := by
    have h3 := Int.floor_le_floor hcrn
    simpa using h3
  simp only [createWavObjFromPosition, pyInt, if_pos hcr]
  rw [if_pos ⟨hfl0, hfl1⟩]
  rfl

/-- Claim C6 witness: offset 15 s on a 10 s file (441000 frames at
44100 Hz) is clamped into range and yields a playable object. -/
theorem clamp_and_playback_start_witness :
    (0 ≤ sliderClamp (((441000 : ℕ) : ℚ) / 44100) 15
      ∧ sliderClamp (((441000 : ℕ) : ℚ) / 44100) 15 ≤ ((441000 : ℕ) : ℚ) / 44100) ∧
    (createWavObjFromPosition 441000 44100
        (sliderClamp (((441000 : ℕ) : ℚ) / 44100) 15)).isSome = true :=
  clamp_and_playback_start 441000 44100 (by norm_num) 15 (Or.inr (by norm_num))

/-- Claim C7: `pause()` is idempotent: calling it twice leaves the session
in exactly the same state (all observables included) as calling it once,
and it is a no-op when the session is not playing. -/
theorem pause_idempotent (s : PlayerState) :
    pause (pause s) = pause s ∧ (s.playing = false → pause s = s) := by
  constructor
  · have h := pause_playing s
    rw [pause, if_pos (by simp [h])]
  · intro h
    rw [pause, if_pos (by simp [h])]

/-- Claim C7 witness: idempotence on a concrete playing session and the
no-op on a concrete non-playing session. -/
theorem pause_idempotent_witness :
    pause (pause sPlaying) = pause sPlaying ∧ pause sDegraded = sDegraded :=
  ⟨(pause_idempotent sPlaying).1, (pause_idempotent sDegraded).2 rfl⟩

/-- Claim C8: for every session state, `stop()` agrees with `pause()`
followed by resetting the current offset (slider and `current_position`) to
0 on every state component except the free-text status label (`stop` writes
`"停止しました"`; the label is the display text, not the session state). -/
theorem stop_eq_pause_then_reset (s : PlayerState) :
    eraseLabel (stop s) = eraseLabel (stopSpec s) := rfl

/-- Claim C9: on a progress-poller tick while the session is playing and
the playback primitive still reports playing, the published current offset
equals `start_position + (now - start_time)` clamped to at most
`totalDuration`, the slider is set to it, and the displayed active file is
re-resolved from that offset via `get_current_file`. -/
theorem progress_tick_publishes (s : PlayerState) (now : ℚ) (p : SaPlayObj)
    (hpl : s.playing = true) (hsa : s.haveSimpleaudio = true)
    (hobj : s.playObj = some p) (hp : p.stillPlaying = true) :
    (update_progress_tick now s).currentPosition
      = min (s.startPosition + (now - s.startTime)) s.totalDuration ∧
    (update_progress_tick now s).sliderValue
      = (update_progress_tick now s).currentPosition ∧
    (update_progress_tick now s).currentFileName
      = get_current_file s.filePositions
          ((update_progress_tick now s).currentPosition) ∧
    (update_progress_tick now s).fileLabel
      = "再生中: " ++ (update_progress_tick now s).currentFileName := by
  by_cases hge : s.startPosition + (now - s.startTime) ≥ s.totalDuration
  · have hmin : min (s.startPosition + (now - s.startTime)) s.totalDuration
        = s.totalDuration := min_eq_right hge
    simp [update_progress_tick, hpl, hsa, hobj, hp, hge, hmin]
  · have hlt := lt_of_not_ge hge
    have hmin : min (s.startPosition + (now - s.startTime)) s.totalDuration
        = s.startPosition + (now - s.startTime) := min_eq_left (le_of_lt hlt)
    simp [update_progress_tick, hpl, hsa, hobj, hp, hge, hmin]

/-- Claim C9 witness: a tick at wall time 2 on a concrete playing session
publishes offset `min (1 + 2) 12.5 = 3` and re-resolves the file. -/
theorem progress_tick_publishes_witness :
    (update_progress_tick 2 sPlaying).currentPosition
      = min (sPlaying.startPosition + (2 - sPlaying.startTime))
          sPlaying.totalDuration ∧
    (update_progress_tick 2 sPlaying).currentFileName
      = get_current_file sPlaying.filePositions
          ((update_progress_tick 2 sPlaying).currentPosition) := by
  obtain ⟨h1, h2, h3, h4⟩ := progress_tick_publishes sPlaying 2 ⟨true⟩ rfl rfl rfl rfl
  exact ⟨h1, h3⟩

/-- Claim C10: the gap decision in `combine_wav_files` compares the file's
path value with `wav_files[-1]` (source line 69), so when the last path also
occurs at an earlier position `i`, no gap follows entry `i` (entry `i+1`
starts exactly where entry `i` ends) and the merged duration is strictly
smaller than `sum(durations) + gapSeconds * (n - 1)` for any positive
gap. -/
theorem gap_skipped_for_duplicate_last (dur : String → ℕ) (files : List String)
    (gap : ℕ) (fin : ℕ) (es : List Entry)
    (hok : combine_wav_files dur files gap = .ok (fin, es))
    (i : ℕ) (hi : i + 1 < files.length)
    (hdup : files.getD i "" = files.getLastD "") (hgap : 0 < gap) :
    (es.getD (i + 1) default).start = (es.getD i default).endPos ∧
    (fin : ℚ) / 1000
      < ((files.map dur).sum : ℚ) / 1000
        + (gap : ℚ) * ((files.length - 1 : ℕ) : ℚ) := by
  obtain ⟨hne, hfin, hes⟩ := combine_wav_files_ok hok
  have hlast2 : files.getLast hne = files.getLastD "" := by
    rw [List.getLastD_eq_getLast?, List.getLast?_eq_getLast _ hne]
    rfl
  constructor
  · rw [hes]
    have hadj := combineLoop_getD_adj dur (files.getLastD "") gap files 0 0
      (by norm_num) i hi
    rw [hadj, if_neg (not_not_intro hdup), add_zero]
  · have hfst := combineLoop_fst dur (files.getLastD "") gap files 0 0
    have hii : i < files.dropLast.length := by
      rw [List.length_dropLast]; omega
    have hmem : files.dropLast.get ⟨i, hii⟩ ∈ files.dropLast :=
      List.get_mem _ _ _
    have hval : files.dropLast.get ⟨i, hii⟩ = files.getLastD "" := by
      have hi2 : i < files.length := by omega
      have e1 : files.dropLast.get ⟨i, hii⟩ = files.get ⟨i, hi2⟩ := by
        rw [List.get_eq_getElem, List.get_eq_getElem]
        exact List.getElem_dropLast files i hii
      have e2 : files.getD i "" = files.get ⟨i, hi2⟩ :=
        List.getD_eq_get files "" hi2
      rw [e1, ← e2, hdup]
    have hcnt : files.countP (fun w => decide (w ≠ files.getLastD "")) + 2
        ≤ files.length := by
      set P : String → Bool := fun w => decide (w ≠ files.getLastD "") with hP
      have hsplit : files.countP P = files.dropLast.countP P := by
        conv_lhs => rw [← List.dropLast_append_getLast hne]
        rw [List.countP_append]
        have h1 : List.countP P [files.getLast hne] = 0 := by
          simp [hP, hlast2]
        rw [h1, Nat.add_zero]
      have hle : files.dropLast.countP P ≤ files.dropLast.length :=
        List.countP_le_length P
      have hneq : files.dropLast.countP P ≠ files.dropLast.length := by
        intro hEq
        have h3 := (List.countP_eq_length).mp hEq _ hmem
        rw [hP] at h3
        simp at h3
        simp at hval
        exact h3 hval
      have hlen : files.dropLast.length = files.length - 1 :=
        List.length_dropLast files
      omega
    set cnt := files.countP (fun w => decide (w ≠ files.getLastD "")) with hcd
    have hfinQ : (fin : ℚ)
        = ((files.map dur).sum : ℚ) + 1000 * (gap : ℚ) * (cnt : ℚ) := by
      rw [hfin, hfst]
      push_cast
      ring
    have hcQ : (cnt : ℚ) ≤ (files.length : ℚ) - 2 := by
      have h4 : (cnt : ℚ) + 2 ≤ (files.length : ℚ) := by exact_mod_cast hcnt
      linarith
    have hgQ : (1 : ℚ) ≤ (gap : ℚ) := by exact_mod_cast hgap
    have hn1 : ((files.length - 1 : ℕ) : ℚ) = (files.length : ℚ) - 1 := by
      have h5 : 1 ≤ files.length := by omega
      rw [Nat.cast_sub h5]
      norm_num
    rw [hfinQ, hn1]
    have hdiv : (((files.map dur).sum : ℚ) + 1000 * (gap : ℚ) * (cnt : ℚ)) / 1000
        = ((files.map dur).sum : ℚ) / 1000 + (gap : ℚ) * (cnt : ℚ) := by
      ring
    rw [hdiv]
    have hgcnt : (gap : ℚ) * (cnt : ℚ) ≤ (gap : ℚ) * ((files.length : ℚ) - 2) :=
      mul_le_mul_of_nonneg_left hcQ (by linarith)
    have hstep : (gap : ℚ) * ((files.length : ℚ) - 2)
        < (gap : ℚ) * ((files.length : ℚ) - 1) :=
      mul_lt_mul_of_pos_left (by linarith) (by linarith)
    linarith

/-- Claim C10 witness: on `["a.wav", "b.wav", "a.wav"]` the second entry
starts where the first ends, and 10.5 s < 13.5 s. -/
theorem gap_skipped_witness :
    (entriesDup.getD 1 default).start = (entriesDup.getD 0 default).endPos ∧
    (10500 : ℚ) / 1000
      < ((filesDup.map durEx).sum : ℚ) / 1000
        + (3 : ℚ) * ((filesDup.length - 1 : ℕ) : ℚ) :=
  gap_skipped_for_duplicate_last durEx filesDup 3 10500 entriesDup combineDup_ok
    0 (by norm_num [filesDup]) (by decide) (by norm_num)

end AudioPlayerModel
